import Mathlib

/-!
Verification of the ad-hoc tabular query engine of the Akave AI Hub
(`src/web/services/queryService.ts`, `src/web/services/databaseService.ts`,
`src/web/controllers/queryController.ts`).

The TypeScript source is shallowly embedded below.  JavaScript string
primitives (`trim`, `split`, `replace` with a global regex, `toLowerCase`,
template interpolation, truthiness) are modelled character-exactly on
`List Char` for the ASCII inputs this service handles; the in-memory SQLite
workspace is modelled as an association list of named relations; the record
store is a list of query records.  Every definition carries a comment naming
the source code it embeds.
-/

namespace AkaveQuery

/-! ## JavaScript string primitives -/

/-- Whitespace as recognised by `String.prototype.trim` (ASCII fragment). -/
def jsWS (c : Char) : Bool :=
  c = ' ' ∨ c = '\t' ∨ c = '\n' ∨ c = '\r' ∨ c = '\x0b' ∨ c = '\x0c'

/-- `s.trim()`: strip whitespace from both ends. -/
def jsTrim (s : List Char) : List Char :=
  ((s.dropWhile jsWS).reverse.dropWhile jsWS).reverse

/-- `s.split(sep)` for a single-character separator: JavaScript semantics,
so splitting the empty string yields `[""]`. -/
def splitOnChar (sep : Char) : List Char → List (List Char)
  | [] => [[]]
  | c :: rest =>
    if c = sep then [] :: splitOnChar sep rest
    else
      match splitOnChar sep rest with
      | [] => [[c]]
      | h :: t => (c :: h) :: t

/-- Split at the first occurrence of a (nonempty) separator string, returning
the text before and after it; `none` when the separator does not occur. -/
def splitFirst (sep : List Char) : List Char → Option (List Char × List Char)
  | [] => if sep = [] then some ([], []) else none
  | c :: rest =>
    if sep.isPrefixOf (c :: rest) then some ([], (c :: rest).drop sep.length)
    else
      match splitFirst sep rest with
      | some (a, b) => some (c :: a, b)
      | none => none

/-- Fuel-indexed helper for `replaceAll`; the fuel bounds the number of scanned
characters so the recursion is structural (each step consumes at least one
character of the subject when the pattern is nonempty). -/
def replaceAllFuel (pat rep : List Char) : Nat → List Char → List Char
  | 0, s => s
  | _ + 1, [] => []
  | fuel + 1, c :: rest =>
    if pat ≠ [] ∧ pat.isPrefixOf (c :: rest) then
      rep ++ replaceAllFuel pat rep fuel ((c :: rest).drop pat.length)
    else
      c :: replaceAllFuel pat rep fuel rest

/-- `s.replace(new RegExp(pat, 'g'), rep)` for a pattern free of regex
metacharacters (the dataset ids handled by this service are UUID strings):
replace every occurrence of `pat` left to right, non-overlapping, without
rescanning replaced text. -/
def replaceAll (pat rep s : List Char) : List Char :=
  replaceAllFuel pat rep s.length s

/-- `array.join(sep)` for a single-character separator. -/
def joinChar (sep : Char) : List (List Char) → List Char
  | [] => []
  | [a] => a
  | a :: b :: rest => a ++ sep :: joinChar sep (b :: rest)

/-- `c.toLowerCase()` on the ASCII range. -/
def jsCharToLower (c : Char) : Char :=
  if 'A' ≤ c ∧ c ≤ 'Z' then Char.ofNat (c.toNat + 32) else c

/-- `s.toLowerCase()` on the ASCII range. -/
def jsToLower (s : List Char) : List Char := s.map jsCharToLower

/-- `s.includes(pat)`: decidable substring containment. -/
def containsSub (pat : List Char) : List Char → Bool
  | [] => pat.isEmpty
  | c :: rest => pat.isPrefixOf (c :: rest) || containsSub pat rest

/-- Parse a nonempty all-digit string as a natural number (used by the
modelled SQL engine for the argument of a LIMIT clause). -/
def parseNat (l : List Char) : Option Nat :=
  if l ≠ [] ∧ l.all (fun c => '0' ≤ c ∧ c ≤ '9') then
    some (l.foldl (fun acc c => acc * 10 + (c.toNat - '0'.toNat)) 0)
  else none

/-! ## Data model -/

/-- A SQLite scalar value as surfaced to JavaScript by better-sqlite3
(TEXT columns yield strings; expressions can yield integers; NULL yields
null).  Floats and blobs are not exercised by this service's loaded data. -/
inductive SVal where
  | nullv
  | num (n : Int)
  | str (s : String)
deriving DecidableEq, Repr

/-- A result row as returned by `stmt.all()`: a JavaScript object, i.e. an
ordered association of column name to value. -/
abbrev SRow := List (String × SVal)

/-- A JSON-ish JavaScript value, used for the format-dependent `result`
payload of a query record. -/
inductive JSVal where
  | nullv
  | num (n : Int)
  | str (s : String)
  | arr (xs : List JSVal)
  | obj (fields : List (String × JSVal))
deriving Repr

/-- One relation of the in-memory workspace: column names and rows of
text-typed values (`loadDatasetIntoDatabase` creates every column as TEXT). -/
structure Table where
  columns : List String
  rows : List (List String)
deriving DecidableEq, Repr

/-- The in-memory SQLite database: named relations in creation order. -/
abbrev Workspace := List (String × Table)

/-- Look a relation up by name. -/
def lookupTable (ws : Workspace) (name : String) : Option Table :=
  (ws.find? (fun p => p.1 == name)).map (·.2)

/-- Replace the relation of the given name (used when inserting rows). -/
def setTable (ws : Workspace) (name : String) (t : Table) : Workspace :=
  ws.map (fun p => if p.1 == name then (name, t) else p)

/-- The fields of a dataset manifest that the query subsystem reads
(`databaseService.ts`, `Manifest`). -/
structure Manifest where
  userId : String
  filename : String
  s3Key : String
deriving DecidableEq, Repr

/-- `outputFormat` of a query request (validated by the controller to be one
of `json`, `csv`, `table`). -/
inductive OutputFormat where
  | json
  | csv
  | table
deriving DecidableEq, Repr

/-- Query record lifecycle status (`queryService.ts`, `QueryResult.status`). -/
inductive QStatus where
  | pending
  | executing
  | completed
  | failed
deriving DecidableEq, Repr

/-- The `QueryResult` record of `queryService.ts` (timestamps are opaque
strings supplied by the environment; `executionTime` a number likewise). -/
structure QueryResult where
  id : String
  query : String
  datasetIds : List String
  outputFormat : OutputFormat
  status : QStatus
  result : Option JSVal := none
  error : Option String := none
  executionTime : Option Nat := none
  rowCount : Option Nat := none
  columns : Option (List String) := none
  createdAt : String
  completedAt : Option String := none
  userId : String
deriving Repr

/-- The `QueryRequest` of `queryService.ts`.  `limit` is an optional
JavaScript number; the code tests it for truthiness, so `some 0` behaves
like `none` there. -/
structure QueryRequest where
  query : String
  datasetIds : List String
  outputFormat : OutputFormat
  limit : Option Nat := none
deriving Repr

/-- The mutable state of one `QueryService` + `DatabaseService` pair:
the lazily initialised in-memory SQLite instance (`private queryDatabase?`)
and the `query_results` rows of the record store. -/
structure ServiceState where
  queryDatabase : Option Workspace := none
  store : List QueryResult := []
deriving Repr

/-- The SQL engine executing an arbitrary statement against the workspace:
better-sqlite3's `db.prepare(q); stmt.all()`, abstracted as a function so
theorems can quantify over engine behaviour. -/
abbrev Engine := Workspace → String → Except String (List SRow)

/-! ## Tabular loader (`QueryService.loadDatasetIntoDatabase`) -/

/-- `v.trim().replace(/"/g, '')`: trim a field, then delete every double
quote (this regex is global, so interior quotes are removed too). -/
def jsField (s : List Char) : List Char :=
  (jsTrim s).filter (fun c => c ≠ '"')

/-- `h.replace(/[^a-zA-Z0-9_]/g, '_')` applied per character. -/
def sanitizeChar (c : Char) : Char :=
  if ('a' ≤ c ∧ c ≤ 'z') ∨ ('A' ≤ c ∧ c ≤ 'Z') ∨ ('0' ≤ c ∧ c ≤ '9') ∨ c = '_' then c
  else '_'

/-- Sanitize one header to the conservative identifier character set. -/
def sanitizeHeader (s : List Char) : List Char := s.map sanitizeChar

/-- Result of one dataset load: `{ rowCount, columns }`. -/
structure LoadInfo where
  rowCount : Nat
  columns : List String
deriving DecidableEq, Repr

/-- The body of the insert loop of `loadDatasetIntoDatabase` (lines
130–136): split a data line on commas, trim and quote-strip each field, and
keep the row only when its field count equals the header's. -/
def parseRow (headerCount : Nat) (line : List Char) : Option (List String) :=
  let values := (splitOnChar ',' line).map jsField
  if values.length = headerCount then some (values.map String.mk) else none

/-- Embeds `QueryService.loadDatasetIntoDatabase` (queryService source,
lines 86–142).  `getManifestById` is the manifest lookup of
`DatabaseService`; `download` abstracts `akaveService.downloadFile` plus the
temp-file read, mapping an s3 key to the raw text content (`none` when the
fetch fails, which the source surfaces as a thrown error).  The CSV parsing
is the source's: trim the content, split on newlines, take the first line as
the header (split on commas, trim, strip quotes, sanitize), create the
relation if it does not exist, and insert every subsequent line whose
comma-split field count equals the header's, skipping the others.  The
behaviour of the external engine on `CREATE TABLE IF NOT EXISTS` (a no-op
when the relation exists) and on preparing the INSERT (an error when the
existing relation's columns differ from the named ones; for the relations
this service creates, column lists match positionally or fail) is modelled
from SQLite's documented semantics. -/
def loadDatasetIntoDatabase (getManifestById : String → Option Manifest)
    (download : String → Option String) (ws : Workspace)
    (datasetId tableName : String) : Except String (Workspace × LoadInfo) :=
  match getManifestById datasetId with
  | none => .error ("Dataset " ++ datasetId ++ " not found")
  | some m =>
    match download m.s3Key with
    | none => .error ("Failed to download " ++ m.s3Key)
    | some csvContent =>
      let lines := splitOnChar '\n' (jsTrim csvContent.data)
      if lines.length = 0 then .error "Dataset is empty"
      else
        let headers := (splitOnChar ',' (lines.headD [])).map jsField
        let sanitizedHeaders := headers.map (fun h => String.mk (sanitizeHeader h))
        let newRows := (lines.drop 1).filterMap (parseRow headers.length)
        match lookupTable ws tableName with
        | some t0 =>
          if t0.columns = sanitizedHeaders then
            .ok (setTable ws tableName { t0 with rows := t0.rows ++ newRows },
                 { rowCount := newRows.length, columns := sanitizedHeaders })
          else .error ("table " ++ tableName ++ " has no such column")
        | none =>
          if sanitizedHeaders.Nodup then
            .ok (ws ++ [(tableName, { columns := sanitizedHeaders, rows := newRows })],
                 { rowCount := newRows.length, columns := sanitizedHeaders })
          else .error "duplicate column name"

/-- The relation name bound to the dataset at position `i` (0-based):
`` `dataset_${i + 1}` `` in `QueryService.executeQuery`. -/
def tableNameStr (i : Nat) : String := "dataset_" ++ toString (i + 1)

/-- The loading loop of `QueryService.executeQuery` (lines 170–178): load
each dataset of the request, in order, into `dataset_1`, `dataset_2`, …;
the first failure aborts the loop, keeping the workspace mutations already
made.  Returns the `tableInfos` list the source builds. -/
def loadAll (getManifestById : String → Option Manifest)
    (download : String → Option String) :
    List String → Nat → Workspace →
    Except String (Workspace × List (String × String × LoadInfo)) × Workspace
  | [], _, ws => (.ok (ws, []), ws)
  | id :: rest, i, ws =>
    match loadDatasetIntoDatabase getManifestById download ws id (tableNameStr i) with
    | .error e => (.error e, ws)
    | .ok (ws1, info) =>
      match loadAll getManifestById download rest (i + 1) ws1 with
      | (.error e, ws2) => (.error e, ws2)
      | (.ok (ws2, infos), _) => (.ok (ws2, (id, tableNameStr i, info) :: infos), ws2)

/-! ## Namespace binder (`QueryService.executeQuery`, lines 180–190) -/

/-- The rewriting loop
`request.datasetIds.forEach((datasetId, index) => { processedQuery =
processedQuery.replace(new RegExp(datasetId, 'g'), tableName) })`,
with the running index threaded explicitly. -/
def rewriteFrom : List String → Nat → List Char → List Char
  | [], _, q => q
  | id :: rest, i, q =>
    rewriteFrom rest (i + 1) (replaceAll id.data (tableNameStr i).data q)

/-- Rewrite the query text, replacing every literal occurrence of each
dataset id (in submission order) by its positional relation name. -/
def rewriteQuery (ids : List String) (q : List Char) : List Char :=
  rewriteFrom ids 0 q

/-- Lines 187–190: `if (request.limit &&
!processedQuery.toLowerCase().includes('limit')) processedQuery +=
` ` LIMIT ${request.limit}` `.  `request.limit` is tested for truthiness,
so an absent limit and a limit of 0 both skip the clause. -/
def applyLimit (limit : Option Nat) (q : String) : String :=
  match limit with
  | none => q
  | some n =>
    if n ≠ 0 ∧ ¬ containsSub "limit".data (jsToLower q.data) then
      q ++ " LIMIT " ++ toString n
    else q

/-! ## Result formatter (`QueryService.executeQuery`, lines 198–226) -/

/-- JavaScript property lookup `row[col]` (`none` models `undefined`). -/
def jsLookup (r : SRow) (k : String) : Option SVal :=
  (r.find? (fun p => p.1 == k)).map (·.2)

/-- JavaScript truthiness of a scalar: `null`, `0` and `''` are falsy. -/
def jsTruthy : SVal → Bool
  | .nullv => false
  | .num n => n ≠ 0
  | .str s => s ≠ ""

/-- Template-literal string conversion of a scalar. -/
def svalToString : SVal → String
  | .nullv => "null"
  | .num n => toString n
  | .str s => s

/-- One delimited cell: `` `"${row[col] || ''}"` `` — the value if truthy,
the empty string otherwise, wrapped in double quotes. -/
def csvCellL (row : SRow) (c : String) : List Char :=
  '"' :: ((match jsLookup row c with
           | some v => if jsTruthy v then (svalToString v).data else []
           | none => []) ++ ['"'])

/-- One delimited data line: the cells of the row joined by commas. -/
def csvLine (columns : List String) (row : SRow) : List Char :=
  joinChar ',' (columns.map (csvCellL row))

/-- The `csv` branch of the formatter: a header of comma-joined column names
followed by one line per row, all joined by newlines. -/
def formatCsv (columns : List String) (rows : List SRow) : String :=
  String.mk (joinChar '\n'
    (joinChar ',' (columns.map String.data) :: rows.map (csvLine columns)))

/-- Embed a scalar into the JSON-ish value universe. -/
def svalToJS : SVal → JSVal
  | .nullv => .nullv
  | .num n => .num n
  | .str s => .str s

/-- A result row as a JSON object. -/
def rowToJS (r : SRow) : JSVal := .obj (r.map (fun p => (p.1, svalToJS p.2)))

/-- The formatting switch of `executeQuery` (lines 202–226): when there are
rows, the column list is `Object.keys(rows[0])` and the result is the rows
(json), the delimited text (csv) or a `{columns, rows}` object (table);
when there are no rows the result is `''` for csv and `[]` otherwise, and
the column list stays empty. -/
def formatResult (fmt : OutputFormat) (rows : List SRow) : JSVal × List String :=
  match rows with
  | [] => (if fmt = .csv then .str "" else .arr [], [])
  | r0 :: _ =>
    let columns := r0.map (·.1)
    match fmt with
    | .json => (.arr (rows.map rowToJS), columns)
    | .csv => (.str (formatCsv columns rows), columns)
    | .table =>
      (.obj [("columns", .arr (columns.map .str)),
             ("rows", .arr (rows.map (fun r => .arr (columns.map (fun c =>
               match jsLookup r c with
               | some v => svalToJS v
               | none => .nullv)))))],
       columns)

/-! ## Query record store (`DatabaseService`, lines 300–390) -/

/-- `DatabaseService.updateQueryResult` merges the defined fields of the
update object into the stored row (`if (value !== undefined)`).  Both call
sites pass a full `QueryResult` whose required fields are all defined, so
only the optional fields fall back to the stored values. -/
def mergeRecord (old upd : QueryResult) : QueryResult :=
  { upd with
    result := upd.result <|> old.result
    error := upd.error <|> old.error
    executionTime := upd.executionTime <|> old.executionTime
    rowCount := upd.rowCount <|> old.rowCount
    columns := upd.columns <|> old.columns
    completedAt := upd.completedAt <|> old.completedAt }

/-- The `UPDATE query_results SET … WHERE id = ?` of
`DatabaseService.updateQueryResult`: merge into every row with that id. -/
def updateStore (store : List QueryResult) (id : String) (upd : QueryResult) :
    List QueryResult :=
  store.map (fun r => if r.id == id then mergeRecord r upd else r)

/-- Embeds `DatabaseService.getQueryResult(id, userId?)` (lines 358–375).
The owner filter is selected by JavaScript truthiness of the optional
`userId` parameter: an absent **or empty** owner id selects the unfiltered
`SELECT * FROM query_results WHERE id = ?`; otherwise the query also
requires `userId = ?`.  `find?` models `stmt.get` returning the first
matching row. -/
def dbGetQueryResult (store : List QueryResult) (id : String)
    (userId : Option String) : Option QueryResult :=
  match userId with
  | none => store.find? (fun r => r.id == id)
  | some u =>
    if u = "" then store.find? (fun r => r.id == id)
    else store.find? (fun r => r.id == id && r.userId == u)

/-- `QueryService.getQueryResult(userId, id)` (queryService source, lines
264–266): delegate to the store with the caller's user id as owner. -/
def svcGetQueryResult (store : List QueryResult) (userId id : String) :
    Option QueryResult :=
  dbGetQueryResult store id (some userId)

/-! ## Query execution (`QueryService.executeQuery`, lines 147–262) -/

/-- Embeds `QueryService.executeQuery`.  Environment inputs that the source
draws from the ambient system — the generated uuid, the ISO timestamps and
the measured execution time — are passed as parameters (`queryId`, `now`,
`elapsed`); the SQL engine is the `eng` parameter.  The body follows the
source line by line: create the `executing` record and store it; lazily
initialise (or **reuse**) the in-memory database; load each dataset into its
positional relation; rewrite the query text; append a LIMIT clause when the
cap is set and absent from the text; run the statement; format; store and
return the completed record.  Any thrown error is caught, recorded and
returned as a `failed` record, never rethrown.  The workspace is kept in the
returned state in every case, as `this.queryDatabase` retains it. -/
def executeQuery (eng : Engine) (getManifestById : String → Option Manifest)
    (download : String → Option String) (userId : String) (req : QueryRequest)
    (queryId now : String) (elapsed : Nat) (st : ServiceState) :
    QueryResult × ServiceState :=
  let initRec : QueryResult :=
    { id := queryId, query := req.query, datasetIds := req.datasetIds,
      outputFormat := req.outputFormat, status := .executing,
      createdAt := now, userId := userId }
  let store1 := st.store ++ [initRec]
  let db := st.queryDatabase.getD []
  let failWith := fun (msg : String) (ws : Workspace) =>
    let failedRec : QueryResult :=
      { id := queryId, query := req.query, datasetIds := req.datasetIds,
        outputFormat := req.outputFormat, status := .failed,
        error := some msg, executionTime := some elapsed,
        createdAt := now, completedAt := some now, userId := userId }
    (failedRec,
     { queryDatabase := some ws, store := updateStore store1 queryId failedRec })
  match loadAll getManifestById download req.datasetIds 0 db with
  | (.error msg, wsPartial) => failWith msg wsPartial
  | (.ok (ws, _infos), _) =>
    let processedQuery :=
      applyLimit req.limit (String.mk (rewriteQuery req.datasetIds req.query.data))
    match eng ws processedQuery with
    | .error msg => failWith msg ws
    | .ok rows =>
      let (formatted, columns) := formatResult req.outputFormat rows
      let completedRec : QueryResult :=
        { initRec with
          status := .completed
          result := some formatted
          executionTime := some elapsed
          rowCount := some rows.length
          columns := some columns
          completedAt := some now }
      (completedRec,
       { queryDatabase := some ws,
         store := updateStore store1 queryId completedRec })

/-! ## HTTP boundary (`QueryController.executeQuery`, controller lines 15–75) -/

/-- Embeds the submission endpoint: authentication guard, request-shape
validation (400), per-dataset ownership check (404), then the service call
wrapped in HTTP 201.  The response is modelled as the status code plus the
`data` payload. -/
def controllerExecuteQuery (eng : Engine)
    (getManifestById : String → Option Manifest)
    (download : String → Option String) (user : Option String)
    (query : String) (datasetIds : Option (List String))
    (outputFormat : String) (limit : Option Nat)
    (queryId now : String) (elapsed : Nat) (st : ServiceState) :
    (Nat × Option QueryResult) × ServiceState :=
  match user with
  | none => ((401, none), st)
  | some uid =>
    if query = "" ∨ datasetIds = none ∨ datasetIds = some [] then
      ((400, none), st)
    else if outputFormat ≠ "json" ∧ outputFormat ≠ "csv" ∧ outputFormat ≠ "table" then
      ((400, none), st)
    else
      let ids := datasetIds.getD []
      if ids.any (fun id =>
          match getManifestById id with
          | none => true
          | some m => m.userId ≠ uid) then
        ((404, none), st)
      else
        let fmt : OutputFormat :=
          if outputFormat = "json" then .json
          else if outputFormat = "csv" then .csv
          else .table
        let (rec, st1) := executeQuery eng getManifestById download uid
          { query := query, datasetIds := ids, outputFormat := fmt, limit := limit }
          queryId now elapsed st
        ((201, some rec), st1)

/-! ## A modelled SQL engine -/

/-- Modelled from the spec: the Query Executor's `execute` operation
(spec §4.3) is realised in the source by the external better-sqlite3
library, which is not part of this repository's sources.  This model
executes exactly the statement shapes the verified scenarios use:
`SELECT * FROM <relation>` returns all rows of the relation in insertion
order, with the relation's columns in declared order, and a trailing
`LIMIT <n>` caps the returned row set at `n` rows (SQLite's documented
LIMIT semantics); every other statement is a syntax error carrying the
engine's message. -/
def miniEngine : Engine := fun ws q =>
  let ql := q.data
  let (basePart, limPart) :=
    match splitFirst " LIMIT ".data ql with
    | some (a, b) => (a, some b)
    | none => (ql, none)
  if "SELECT * FROM ".data.isPrefixOf basePart then
    let tname := String.mk (basePart.drop "SELECT * FROM ".data.length)
    match lookupTable ws tname with
    | none => .error ("no such table: " ++ tname)
    | some t =>
      let rows := t.rows.map (fun vals => t.columns.zip (vals.map SVal.str))
      match limPart with
      | none => .ok rows
      | some nl =>
        match parseNat nl with
        | some n => .ok (rows.take n)
        | none => .error ("near \"" ++ String.mk nl ++ "\": syntax error")
  else .error ("near \"" ++ q ++ "\": syntax error")

/-! ## Lemmas about the string primitives -/

theorem splitOnChar_of_not_mem {sep : Char} {a : List Char} (h : sep ∉ a) :
    splitOnChar sep a = [a] := by
  induction a with
  | nil => rfl
  | cons c rest ih =>
    have hc : c ≠ sep := fun hc => h (hc ▸ List.mem_cons_self c rest)
    have hr : sep ∉ rest := fun hm => h (List.mem_cons_of_mem c hm)
    simp [splitOnChar, hc, ih hr]

theorem splitOnChar_append {sep : Char} {a : List Char} (b : List Char)
    (h : sep ∉ a) : splitOnChar sep (a ++ sep :: b) = a :: splitOnChar sep b := by
  induction a with
  | nil => simp [splitOnChar]
  | cons c rest ih =>
    have hc : c ≠ sep := fun hc => h (hc ▸ List.mem_cons_self c rest)
    have hr : sep ∉ rest := fun hm => h (List.mem_cons_of_mem c hm)
    simp only [List.cons_append, splitOnChar, if_neg hc]
    have this2 : splitOnChar sep (rest.append (sep :: b)) = rest :: splitOnChar sep b :=
      ih hr
    rw [this2]

theorem splitOnChar_joinChar {sep : Char} {ls : List (List Char)}
    (hne : ls ≠ []) (h : ∀ l ∈ ls, sep ∉ l) :
    splitOnChar sep (joinChar sep ls) = ls := by
  induction ls with
  | nil => exact absurd rfl hne
  | cons a rest ih =>
    match rest with
    | [] => exact splitOnChar_of_not_mem (h a (List.mem_cons_self a []))
    | b :: rest2 =>
      have ha : sep ∉ a := h a (List.mem_cons_self _ _)
      have hrest : ∀ l ∈ b :: rest2, sep ∉ l := fun l hl =>
        h l (List.mem_cons_of_mem a hl)
      calc splitOnChar sep (joinChar sep (a :: b :: rest2))
          = splitOnChar sep (a ++ sep :: joinChar sep (b :: rest2)) := rfl
        _ = a :: splitOnChar sep (joinChar sep (b :: rest2)) :=
            splitOnChar_append _ ha
        _ = a :: b :: rest2 := by rw [ih (by simp) hrest]

theorem dropWhile_append_of_fixed {p : Char → Bool} {a : List Char}
    (b : List Char) (hne : a ≠ []) (ha : a.dropWhile p = a) :
    (a ++ b).dropWhile p = a ++ b := by
  match a, hne with
  | c :: rest, _ =>
    have hc : p c = false := by
      by_contra hpc
      have hpc' : p c = true := by revert hpc; cases p c <;> simp
      rw [List.dropWhile_cons, if_pos hpc'] at ha
      have hlen := congrArg List.length ha
      have hle : (rest.dropWhile p).length ≤ rest.length :=
        (List.dropWhile_suffix p).length_le
      simp at hlen
      omega
    rw [List.cons_append, List.dropWhile_cons, if_neg (by simp [hc])]

theorem jsTrim_eq_self {s : List Char} (h1 : s.dropWhile jsWS = s)
    (h2 : s.reverse.dropWhile jsWS = s.reverse) : jsTrim s = s := by
  unfold jsTrim
  rw [h1, h2, List.reverse_reverse]

theorem replaceAllFuel_rep_infix {pat rep : List Char} (hpat : pat ≠ []) :
    ∀ (fuel : Nat) (s : List Char), s.length ≤ fuel → pat <:+: s →
      rep <:+: replaceAllFuel pat rep fuel s := by
  intro fuel
  induction fuel with
  | zero =>
    intro s hlen hocc
    have hs : s = [] := List.length_eq_zero.mp (Nat.le_zero.mp hlen)
    subst hs
    exact absurd (List.infix_nil.mp hocc) hpat
  | succ fuel ih =>
    intro s hlen hocc
    match s with
    | [] => exact absurd (List.infix_nil.mp hocc) hpat
    | c :: rest =>
      by_cases hpre : pat.isPrefixOf (c :: rest)
      · rw [replaceAllFuel, if_pos ⟨hpat, hpre⟩]
        exact ((rep.prefix_append _).isInfix)
      · rw [replaceAllFuel, if_neg (fun hand => hpre hand.2)]
        have hrest : pat <:+: rest := by
          rcases List.infix_cons_iff.mp hocc with hp | hi
          · exact absurd (List.isPrefixOf_iff_prefix.mpr hp) hpre
          · exact hi
        have : rest.length ≤ fuel := by
          have := hlen
          simp at this
          omega
        exact List.infix_cons (ih rest this hrest)

theorem replaceAllFuel_of_not_infix {pat rep : List Char} :
    ∀ (fuel : Nat) (s : List Char), ¬ (pat <:+: s) →
      replaceAllFuel pat rep fuel s = s := by
  intro fuel
  induction fuel with
  | zero => intro s _; rfl
  | succ fuel ih =>
    intro s hocc
    match s with
    | [] => rfl
    | c :: rest =>
      have hpre : ¬ pat.isPrefixOf (c :: rest) := fun hp =>
        hocc (List.isPrefixOf_iff_prefix.mp hp).isInfix
      rw [replaceAllFuel, if_neg (fun hand => hpre hand.2)]
      have hrest : ¬ pat <:+: rest := fun hi => hocc (List.infix_cons hi)
      rw [ih rest hrest]

theorem replaceAll_rep_infix {pat rep s : List Char} (hpat : pat ≠ [])
    (hocc : pat <:+: s) : rep <:+: replaceAll pat rep s :=
  replaceAllFuel_rep_infix hpat s.length s (Nat.le_refl _) hocc

theorem replaceAll_of_not_infix {pat rep s : List Char}
    (hocc : ¬ (pat <:+: s)) : replaceAll pat rep s = s :=
  replaceAllFuel_of_not_infix s.length s hocc

theorem rewriteFrom_append (a b : List String) (i : Nat) (q : List Char) :
    rewriteFrom (a ++ b) i q = rewriteFrom b (i + a.length) (rewriteFrom a i q) := by
  induction a generalizing i q with
  | nil => simp [rewriteFrom]
  | cons id rest ih =>
    simp only [List.cons_append, rewriteFrom, List.length_cons]
    have ih2 : rewriteFrom (rest.append b) (i + 1)
          (replaceAll id.data (tableNameStr i).data q)
        = rewriteFrom b (i + 1 + rest.length)
          (rewriteFrom rest (i + 1) (replaceAll id.data (tableNameStr i).data q)) :=
      ih (i + 1) _
    rw [ih2]
    have h2 : i + 1 + rest.length = i + (rest.length + 1) := by omega
    rw [h2]

theorem rewriteFrom_of_no_occurrence {ids : List String} {q : List Char}
    (i : Nat) (h : ∀ id ∈ ids, ¬ (id.data <:+: q)) : rewriteFrom ids i q = q := by
  induction ids generalizing i with
  | nil => rfl
  | cons id rest ih =>
    have hid : ¬ (id.data <:+: q) := h id (List.mem_cons_self _ _)
    rw [rewriteFrom, replaceAll_of_not_infix hid]
    exact ih (i + 1) (fun d hd => h d (List.mem_cons_of_mem _ hd))

/-! ## Claim theorems -/

/-- **C7** (code bug exhibit): loading a dataset whose fetched content is the
empty string does **not** fail with the "Dataset is empty" loader error — it
succeeds, creating a relation with one empty-named TEXT column and zero rows.
The guard `if (lines.length === 0)` is unreachable because
`''.trim().split('\n')` is `['']` (length 1) in JavaScript. -/
theorem c7_empty_source_loads_zero_rows :
    loadDatasetIntoDatabase (fun _ => some ⟨"user-1", "data.csv", "key-1"⟩)
      (fun _ => some "") [] "ds1" "dataset_1" =
      .ok ([("dataset_1", { columns := [""], rows := [] })],
           { rowCount := 0, columns := [""] }) := by
  rfl

/-- **C1** (code bug exhibit): the in-memory workspace is a lazily created
singleton reused across `executeQuery` calls, and `CREATE TABLE IF NOT
EXISTS` plus plain INSERTs append to the surviving relation.  After a first
call loading a 2-row dataset, the relation `dataset_1` with its rows is
still in the service state, and a second identical call on the same service
instance observes 4 rows — the earlier execution's rows leak into the next
one. -/
theorem c1_relation_outlives_execution :
    (let gm := fun (_ : String) => some (Manifest.mk "user-1" "data.csv" "key-1")
     let dl := fun (_ : String) => some "a\n1\n2"
     let req : QueryRequest :=
       { query := "SELECT * FROM ds1", datasetIds := ["ds1"], outputFormat := .json }
     let r1 := executeQuery miniEngine gm dl "user-1" req "q1" "T0" 3 {}
     let r2 := executeQuery miniEngine gm dl "user-1" req "q2" "T1" 3 r1.2
     r1.1.rowCount = some 2 ∧
     r1.2.queryDatabase =
       some [("dataset_1", { columns := ["a"], rows := [["1"], ["2"]] })] ∧
     r2.1.rowCount = some 4) :=
  ⟨rfl, rfl, rfl⟩

/-- **C2** (counterexample): sequential textual substitution interferes with
itself.  With dataset ids `["t", "1"]` and query `SELECT * FROM t`, the
first substitution yields `SELECT * FROM dataset_1` and the second then
rewrites the `1` inside that relation name, producing
`SELECT * FROM dataset_dataset_2`: the id `t` occurred in the original text
but its bound relation name `dataset_1` does not occur in the rewritten
query at all (so the rewritten query does not contain N = 2 distinct bound
names either). -/
theorem c2_counterexample :
    rewriteQuery ["t", "1"] "SELECT * FROM t".data =
      "SELECT * FROM dataset_dataset_2".data ∧
    ¬ ("dataset_1".data <:+: "SELECT * FROM dataset_dataset_2".data) := by
  exact ⟨rfl, by decide⟩

/-- **C5** (counterexample): the stored-owner check is skipped for the empty
user id.  `DatabaseService.getQueryResult` selects the owner-filtered query
by JavaScript truthiness of `userId`, and `""` is falsy, so
`getQueryResult(r.id, "")` returns a record owned by `"alice"` even though
`"" ≠ "alice"` — the claim's "for every user id u" fails at `u = ""`. -/
theorem c5_counterexample :
    (let r : QueryResult :=
       { id := "q1", query := "SELECT 1", datasetIds := ["d1"],
         outputFormat := .json, status := .completed, createdAt := "T0",
         userId := "alice" }
     svcGetQueryResult [r] "" "q1" = some r ∧
     r.userId = "alice" ∧ ("" : String) ≠ "alice") :=
  ⟨rfl, rfl, by decide⟩

/-- **C8** (counterexample): with `outputFormat: "table"` and an empty row
set, the completed record's `result` is the bare empty array `[]` (the
`formattedResult = request.outputFormat === 'csv' ? '' : []` branch), not a
`{columns, rows: []}` object, and its `columns` list is empty. -/
theorem c8_counterexample :
    (let gm := fun (_ : String) => some (Manifest.mk "user-1" "data.csv" "key-1")
     let dl := fun (_ : String) => some "a,b"
     let req : QueryRequest :=
       { query := "SELECT * FROM ds1", datasetIds := ["ds1"], outputFormat := .table }
     let rec1 := (executeQuery miniEngine gm dl "user-1" req "q1" "T0" 3 {}).1
     rec1.status = .completed ∧ rec1.rowCount = some 0 ∧
     rec1.columns = some [] ∧
     rec1.result = some (JSVal.arr []) ∧
     JSVal.arr [] ≠
       JSVal.obj [("columns", JSVal.arr [JSVal.str "a", JSVal.str "b"]),
                  ("rows", JSVal.arr [])]) :=
  ⟨rfl, rfl, rfl, rfl, fun h => JSVal.noConfusion h⟩

/-- **C9** (counterexample): `row[col] || ''` blanks every falsy value, not
only null/undefined.  A row whose value is the number `0` serializes to an
empty quoted field `""` instead of passing through as `"0"`. -/
theorem c9_counterexample :
    formatCsv ["a"] [[("a", SVal.num 0)]] = "a\n\"\"" ∧
    ("a\n\"\"" : String) ≠ "a\n\"0\"" :=
  ⟨rfl, by decide⟩

theorem parseRow_some {n : Nat} {line : List Char}
    (h : (splitOnChar ',' line).length = n) :
    parseRow n line = some (((splitOnChar ',' line).map jsField).map String.mk) := by
  unfold parseRow
  rw [if_pos (by rw [List.length_map]; exact h)]

theorem parseRow_none {n : Nat} {line : List Char}
    (h : (splitOnChar ',' line).length ≠ n) : parseRow n line = none := by
  unfold parseRow
  rw [if_neg (by rw [List.length_map]; exact h)]

/-- **C2** (amended): the binder generates the positional relation name
`dataset_{i+1}` for the id at 0-based position `i` and rewrites by
sequential global text substitution in submission order.  An id's bound
relation name is guaranteed to occur in the rewritten query when the id
still occurs in the text produced by the earlier substitutions and no later
id occurs in the text produced by this id's own substitution (without this
non-interference condition the substitutions can destroy each other's
output, as the counterexample shows; for the last id the condition's second
half is vacuous). -/
theorem c2_amended_rewrite (pre post : List String) (id : String)
    (q0 : List Char) (hne : id.data ≠ [])
    (hocc : id.data <:+: rewriteFrom pre 0 q0)
    (hlater : ∀ jd ∈ post,
      ¬ (jd.data <:+:
          replaceAll id.data (tableNameStr pre.length).data (rewriteFrom pre 0 q0))) :
    (tableNameStr pre.length).data <:+: rewriteQuery (pre ++ id :: post) q0 := by
  unfold rewriteQuery
  rw [rewriteFrom_append, Nat.zero_add, rewriteFrom,
      rewriteFrom_of_no_occurrence (pre.length + 1) hlater]
  exact replaceAll_rep_infix hne hocc

/-- Witness for the amended C2 theorem: a single dataset id `ds1` occurring
in `SELECT * FROM ds1` yields a rewritten query containing `dataset_1`. -/
theorem c2_amended_rewrite_witness :
    "dataset_1".data <:+: rewriteQuery ["ds1"] "SELECT * FROM ds1".data :=
  c2_amended_rewrite [] [] "ds1" "SELECT * FROM ds1".data (by decide)
    (by decide) (by intro jd hjd; cases hjd)

theorem data_mk (l : List Char) : (String.mk l).data = l := rfl

/-- **C3**: loading content whose header line is `a,b,c`, followed by two
data lines of three comma-separated fields, yields exactly 2 loaded rows and
sanitized column list `["a","b","c"]`; appending a third line whose field
count is not 3 still yields exactly 2 rows — the malformed row is skipped
and the load succeeds.  The hypotheses state that the data lines contain no
newline and that the last line does not end in whitespace (the source trims
the whole content, so trailing whitespace would move to the line split). -/
theorem c3_loader_roundtrip (l1 l2 l3 : List Char)
    (h1 : '\n' ∉ l1) (h2 : '\n' ∉ l2) (h3 : '\n' ∉ l3)
    (f1 : (splitOnChar ',' l1).length = 3)
    (f2 : (splitOnChar ',' l2).length = 3)
    (f3 : (splitOnChar ',' l3).length ≠ 3)
    (n3 : l3 ≠ [])
    (t2 : l2.reverse.dropWhile jsWS = l2.reverse)
    (t3 : l3.reverse.dropWhile jsWS = l3.reverse) :
    ((loadDatasetIntoDatabase (fun _ => some ⟨"user-1", "data.csv", "key-1"⟩)
        (fun _ => some (String.mk ("a,b,c".data ++ ('\n' :: (l1 ++ ('\n' :: l2))))))
        [] "ds1" "dataset_1").toOption.map Prod.snd =
      some { rowCount := 2, columns := ["a", "b", "c"] }) ∧
    ((loadDatasetIntoDatabase (fun _ => some ⟨"user-1", "data.csv", "key-1"⟩)
        (fun _ => some (String.mk
          ("a,b,c".data ++ ('\n' :: (l1 ++ ('\n' :: (l2 ++ ('\n' :: l3))))))))
        [] "ds1" "dataset_1").toOption.map Prod.snd =
      some { rowCount := 2, columns := ["a", "b", "c"] }) := by
  have n2 : l2 ≠ [] := by
    intro hnil
    rw [hnil] at f2
    simp [splitOnChar] at f2
  have hhdr : ('\n' : Char) ∉ "a,b,c".data := by decide
  have hp1 : parseRow 3 l1 = some (((splitOnChar ',' l1).map jsField).map String.mk) :=
    parseRow_some f1
  have hp2 : parseRow 3 l2 = some (((splitOnChar ',' l2).map jsField).map String.mk) :=
    parseRow_some f2
  have hp3 : parseRow 3 l3 = none := parseRow_none f3
  have hcols : splitOnChar ',' ['a', ',', 'b', ',', 'c'] = [['a'], ['b'], ['c']] := by
    decide
  have hsan : List.map ((fun h => String.mk (sanitizeHeader h)) ∘ jsField)
      [['a'], ['b'], ['c']] = ["a", "b", "c"] := by decide
  have e1 : String.mk (sanitizeHeader (jsField ['a'])) = "a" := by decide
  have e2 : String.mk (sanitizeHeader (jsField ['b'])) = "b" := by decide
  have e3 : String.mk (sanitizeHeader (jsField ['c'])) = "c" := by decide
  constructor
  · have htrim : jsTrim ("a,b,c".data ++ ('\n' :: (l1 ++ ('\n' :: l2)))) =
        "a,b,c".data ++ ('\n' :: (l1 ++ ('\n' :: l2))) := by
      apply jsTrim_eq_self
      · exact dropWhile_append_of_fixed _ (by decide) (by decide)
      · have hrev : ("a,b,c".data ++ ('\n' :: (l1 ++ ('\n' :: l2)))).reverse =
            l2.reverse ++ ('\n' :: (l1.reverse ++ ('\n' :: "a,b,c".data.reverse))) := by
          simp
        rw [hrev]
        exact dropWhile_append_of_fixed _
          (fun h => n2 (List.reverse_eq_nil_iff.mp h)) t2
    have hsplit : splitOnChar '\n' ("a,b,c".data ++ ('\n' :: (l1 ++ ('\n' :: l2)))) =
        ["a,b,c".data, l1, l2] := by
      rw [splitOnChar_append _ hhdr, splitOnChar_append _ h1,
          splitOnChar_of_not_mem h2]
    simp only [loadDatasetIntoDatabase, data_mk, htrim, hsplit]
    simp [lookupTable, List.filterMap, hcols, hsan, e1, e2, e3, hp1, hp2]
    exact ⟨_, rfl⟩
  · have htrim : jsTrim ("a,b,c".data ++ ('\n' :: (l1 ++ ('\n' :: (l2 ++ ('\n' :: l3)))))) =
        "a,b,c".data ++ ('\n' :: (l1 ++ ('\n' :: (l2 ++ ('\n' :: l3))))) := by
      apply jsTrim_eq_self
      · exact dropWhile_append_of_fixed _ (by decide) (by decide)
      · have hrev : ("a,b,c".data ++ ('\n' :: (l1 ++ ('\n' :: (l2 ++ ('\n' :: l3)))))).reverse =
            l3.reverse ++ ('\n' :: (l2.reverse ++ ('\n' :: (l1.reverse ++
              ('\n' :: "a,b,c".data.reverse))))) := by
          simp
        rw [hrev]
        exact dropWhile_append_of_fixed _
          (fun h => n3 (List.reverse_eq_nil_iff.mp h)) t3
    have hsplit : splitOnChar '\n'
        ("a,b,c".data ++ ('\n' :: (l1 ++ ('\n' :: (l2 ++ ('\n' :: l3)))))) =
        ["a,b,c".data, l1, l2, l3] := by
      rw [splitOnChar_append _ hhdr, splitOnChar_append _ h1,
          splitOnChar_append _ h2, splitOnChar_of_not_mem h3]
    simp only [loadDatasetIntoDatabase, data_mk, htrim, hsplit]
    simp [lookupTable, List.filterMap, hcols, hsan, e1, e2, e3, hp1, hp2, hp3]
    exact ⟨_, rfl⟩

/-- Witness for C3 at concrete content `a,b,c` / `1,2,3` / `4,5,6` and the
malformed extra row `7,8`. -/
theorem c3_loader_roundtrip_witness :
    ((loadDatasetIntoDatabase (fun _ => some ⟨"user-1", "data.csv", "key-1"⟩)
        (fun _ => some "a,b,c\n1,2,3\n4,5,6") [] "ds1" "dataset_1").toOption.map
        Prod.snd =
      some { rowCount := 2, columns := ["a", "b", "c"] }) ∧
    ((loadDatasetIntoDatabase (fun _ => some ⟨"user-1", "data.csv", "key-1"⟩)
        (fun _ => some "a,b,c\n1,2,3\n4,5,6\n7,8") [] "ds1" "dataset_1").toOption.map
        Prod.snd =
      some { rowCount := 2, columns := ["a", "b", "c"] }) :=
  c3_loader_roundtrip "1,2,3".data "4,5,6".data "7,8".data (by decide) (by decide)
    (by decide) (by decide) (by decide) (by decide) (by decide) (by decide)
    (by decide)

theorem pairwise_id_unique {store : List QueryResult}
    (huniq : store.Pairwise (fun a b => a.id ≠ b.id)) {x y : QueryResult}
    (hx : x ∈ store) (hy : y ∈ store) (h : x.id = y.id) : x = y := by
  induction store with
  | nil => cases hx
  | cons a rest ih =>
    rcases List.mem_cons.mp hx with rfl | hx2
    · rcases List.mem_cons.mp hy with rfl | hy2
      · rfl
      · exact absurd h ((List.pairwise_cons.mp huniq).1 y hy2)
    · rcases List.mem_cons.mp hy with rfl | hy2
      · exact absurd h.symm ((List.pairwise_cons.mp huniq).1 x hx2)
      · exact ih (List.pairwise_cons.mp huniq).2 hx2 hy2

theorem find_by_id_of_unique {store : List QueryResult} {id : String}
    {r : QueryResult} (huniq : store.Pairwise (fun a b => a.id ≠ b.id))
    (hr : r ∈ store) (hid : r.id = id) :
    store.find? (fun x => x.id == id) = some r := by
  induction store with
  | nil => cases hr
  | cons a rest ih =>
    rcases List.mem_cons.mp hr with rfl | hr2
    · rw [List.find?_cons_of_pos _ (by simp [hid])]
    · have haid : a.id ≠ id := by
        intro hcontra
        have hne : a.id ≠ r.id := (List.pairwise_cons.mp huniq).1 r hr2
        exact hne (hcontra.trans hid.symm)
      rw [List.find?_cons_of_neg _ (by simp [haid])]
      exact ih (List.pairwise_cons.mp huniq).2 hr2

theorem find_by_id_owner_of_unique {store : List QueryResult} {id u : String}
    {r : QueryResult} (huniq : store.Pairwise (fun a b => a.id ≠ b.id))
    (hr : r ∈ store) (hid : r.id = id) (hu : r.userId = u) :
    store.find? (fun x => x.id == id && x.userId == u) = some r := by
  induction store with
  | nil => cases hr
  | cons a rest ih =>
    rcases List.mem_cons.mp hr with rfl | hr2
    · rw [List.find?_cons_of_pos _ (by simp [hid, hu])]
    · have haid : a.id ≠ id := by
        intro hcontra
        have hne : a.id ≠ r.id := (List.pairwise_cons.mp huniq).1 r hr2
        exact hne (hcontra.trans hid.symm)
      rw [List.find?_cons_of_neg _ (by simp [haid])]
      exact ih (List.pairwise_cons.mp huniq).2 hr2

/-- **C5** (amended): for every **nonempty** user id `u`, the record lookup
returns the stored record exactly when `u` equals its stored owner, and
returns NotFound (`null`) when `u` is a different user — the original
claim's "every user id" fails only at the empty string, where JavaScript
truthiness skips the owner filter (see the counterexample). -/
theorem c5_amended_ownership (store : List QueryResult) (u id : String)
    (r : QueryResult) (hu : u ≠ "")
    (huniq : store.Pairwise (fun a b => a.id ≠ b.id))
    (hr : r ∈ store) (hid : r.id = id) :
    (svcGetQueryResult store u id = some r ↔ u = r.userId) ∧
    (u ≠ r.userId → svcGetQueryResult store u id = none) := by
  have hunfold : svcGetQueryResult store u id =
      store.find? (fun x => x.id == id && x.userId == u) := by
    simp only [svcGetQueryResult, dbGetQueryResult]
    rw [if_neg hu]
  constructor
  · constructor
    · intro hfind
      rw [hunfold] at hfind
      have hpred := List.find?_some hfind
      simp at hpred
      exact hpred.2.symm
    · intro huo
      rw [hunfold]
      exact find_by_id_owner_of_unique huniq hr hid huo.symm
  · intro hne
    rw [hunfold, List.find?_eq_none]
    intro x hx hpred
    simp at hpred
    have hxid : x.id = id := hpred.1
    have hxa : x = r := pairwise_id_unique huniq hx hr (hxid.trans hid.symm)
    exact hne (by rw [← hpred.2, hxa])

/-- Witness for the amended C5 theorem: a record owned by `alice` is not
returned to `bob`. -/
theorem c5_amended_ownership_witness :
    (let r : QueryResult :=
       { id := "q1", query := "SELECT 1", datasetIds := ["d1"],
         outputFormat := .json, status := .completed, createdAt := "T0",
         userId := "alice" }
     svcGetQueryResult [r] "bob" "q1" = none) :=
  (c5_amended_ownership _ "bob" "q1" _ (by decide)
      (List.pairwise_singleton _ _) (List.mem_singleton.mpr rfl) rfl).2
    (by decide)

/-- **C10**: the record store's owner filter is optional: with the owner id
omitted, `DatabaseService.getQueryResult` returns the stored record with the
requested id regardless of its stored owner; and whenever a (nonempty)
owner id is supplied and a record is returned, that record's stored owner
equals it — so the filter is applied only when the call site passes the
owner. -/
theorem c10_optional_owner_filter (store : List QueryResult) (id : String)
    (r : QueryResult) (huniq : store.Pairwise (fun a b => a.id ≠ b.id))
    (hr : r ∈ store) (hid : r.id = id) :
    (dbGetQueryResult store id none = some r) ∧
    (∀ u r2, u ≠ "" → dbGetQueryResult store id (some u) = some r2 →
      r2.userId = u) := by
  constructor
  · unfold dbGetQueryResult
    exact find_by_id_of_unique huniq hr hid
  · intro u r2 hu hfind
    simp only [dbGetQueryResult] at hfind
    rw [if_neg hu] at hfind
    have hpred := List.find?_some hfind
    simp at hpred
    exact hpred.2

/-- Witness for C10: the `alice`-owned record is returned when no owner id
is supplied. -/
theorem c10_optional_owner_filter_witness :
    (let r : QueryResult :=
       { id := "q1", query := "SELECT 1", datasetIds := ["d1"],
         outputFormat := .json, status := .completed, createdAt := "T0",
         userId := "alice" }
     dbGetQueryResult [r] "q1" none = some r) :=
  (c10_optional_owner_filter _ "q1" _ (List.pairwise_singleton _ _)
      (List.mem_singleton.mpr rfl) rfl).1

/-- **C6**: when the request's limit is set (truthy) and the processed query
text does not contain the substring `limit` case-insensitively, the binder
appends ` LIMIT n`; and the spec's scenario — `SELECT * FROM ds1` over a
10-row dataset with `limit: 5` and csv output — completes with a delimited
result of one header line plus exactly 5 data lines. -/
theorem c6_limit_injection :
    (∀ (q : String) (n : Nat), 0 < n →
      containsSub "limit".data (jsToLower q.data) = false →
      applyLimit (some n) q = q ++ " LIMIT " ++ toString n) ∧
    (let gm := fun (_ : String) => some (Manifest.mk "user-1" "data.csv" "key-1")
     let dl := fun (_ : String) => some "v\n1\n2\n3\n4\n5\n6\n7\n8\n9\n10"
     let req : QueryRequest :=
       { query := "SELECT * FROM ds1", datasetIds := ["ds1"],
         outputFormat := .csv, limit := some 5 }
     let rec1 := (executeQuery miniEngine gm dl "user-1" req "q1" "T0" 3 {}).1
     rec1.status = .completed ∧ rec1.rowCount = some 5 ∧
     rec1.result = some (JSVal.str "v\n\"1\"\n\"2\"\n\"3\"\n\"4\"\n\"5\"") ∧
     (splitOnChar '\n' "v\n\"1\"\n\"2\"\n\"3\"\n\"4\"\n\"5\"".data).length = 1 + 5) := by
  constructor
  · intro q n hn hc
    simp only [applyLimit]
    rw [if_pos ⟨Nat.pos_iff_ne_zero.mp hn, by rw [hc]; exact Bool.false_ne_true⟩]
  · exact ⟨rfl, rfl, rfl, by decide⟩

/-- Witness for the conditional part of C6: the scenario's rewritten query
gains ` LIMIT 5`. -/
theorem c6_limit_injection_witness :
    applyLimit (some 5) "SELECT * FROM dataset_1" =
      "SELECT * FROM dataset_1 LIMIT 5" :=
  (c6_limit_injection.1 "SELECT * FROM dataset_1" 5 (by decide) (by decide)).trans
    rfl

/-- **C4**: whenever the request passes the boundary checks, every dataset
loads, and the (rewritten, limit-adjusted) statement fails at the engine
with message `msg`, `executeQuery` does not throw: the controller still
answers HTTP 201, and the returned record has status `failed` with the
engine's message verbatim in its `error` field. -/
theorem c4_engine_failure_recorded (eng : Engine)
    (getM : String → Option Manifest) (dl : String → Option String)
    (uid query : String) (ids : List String) (outputFormat : String)
    (limit : Option Nat) (queryId now : String) (elapsed : Nat)
    (st : ServiceState) (msg : String) (ws : Workspace)
    (infos : List (String × String × LoadInfo))
    (hq : query ≠ "") (hids : ids ≠ [])
    (hfmt : outputFormat = "json" ∨ outputFormat = "csv" ∨ outputFormat = "table")
    (hown : ∀ id ∈ ids, ∃ m, getM id = some m ∧ m.userId = uid)
    (hload : loadAll getM dl ids 0 (st.queryDatabase.getD []) = (.ok (ws, infos), ws))
    (heng : eng ws (applyLimit limit (String.mk (rewriteQuery ids query.data))) =
      .error msg) :
    ((controllerExecuteQuery eng getM dl (some uid) query (some ids) outputFormat
        limit queryId now elapsed st).1.1 = 201) ∧
    ((controllerExecuteQuery eng getM dl (some uid) query (some ids) outputFormat
        limit queryId now elapsed st).1.2.map QueryResult.status = some .failed) ∧
    ((controllerExecuteQuery eng getM dl (some uid) query (some ids) outputFormat
        limit queryId now elapsed st).1.2.map QueryResult.error =
      some (some msg)) := by
  have hc1 : ¬ (query = "" ∨ (some ids : Option (List String)) = none ∨
      (some ids : Option (List String)) = some []) := by
    intro h
    rcases h with h | h | h
    · exact hq h
    · exact Option.noConfusion h
    · exact hids (Option.some.inj h)
  have hc2 : ¬ (outputFormat ≠ "json" ∧ outputFormat ≠ "csv" ∧
      outputFormat ≠ "table") := by
    rcases hfmt with h | h | h <;> simp [h]
  have hc3 : ids.any (fun id =>
      match getM id with
      | none => true
      | some m => m.userId ≠ uid) = false := by
    rw [List.any_eq_false]
    intro id hid
    obtain ⟨m, hm, hum⟩ := hown id hid
    simp [hm, hum]
  have hctrl : controllerExecuteQuery eng getM dl (some uid) query (some ids)
      outputFormat limit queryId now elapsed st =
      ((201, some (executeQuery eng getM dl uid
        { query := query, datasetIds := ids,
          outputFormat := if outputFormat = "json" then .json
            else if outputFormat = "csv" then .csv else .table,
          limit := limit } queryId now elapsed st).1),
       (executeQuery eng getM dl uid
        { query := query, datasetIds := ids,
          outputFormat := if outputFormat = "json" then .json
            else if outputFormat = "csv" then .csv else .table,
          limit := limit } queryId now elapsed st).2) := by
    simp only [controllerExecuteQuery, if_neg hc1, if_neg hc2, hc3,
      Bool.false_eq_true, if_false, Option.getD_some]
  have hexec : (executeQuery eng getM dl uid
      { query := query, datasetIds := ids,
        outputFormat := if outputFormat = "json" then .json
          else if outputFormat = "csv" then .csv else .table,
        limit := limit } queryId now elapsed st).1.status = .failed ∧
      (executeQuery eng getM dl uid
      { query := query, datasetIds := ids,
        outputFormat := if outputFormat = "json" then .json
          else if outputFormat = "csv" then .csv else .table,
        limit := limit } queryId now elapsed st).1.error = some msg := by
    simp only [executeQuery, hload, heng]
    exact ⟨trivial, trivial⟩
  rw [hctrl]
  exact ⟨rfl, by simp [hexec.1], by simp [hexec.2]⟩

/-- Witness for C4: a constant-failure engine on a loaded single dataset
yields 201 with a `failed` record carrying the engine message. -/
theorem c4_engine_failure_recorded_witness :
    (let eng : Engine := fun _ _ => .error "near \"FRM\": syntax error"
     let gm := fun (_ : String) => some (Manifest.mk "user-1" "data.csv" "key-1")
     let dl := fun (_ : String) => some "a\n1"
     ((controllerExecuteQuery eng gm dl (some "user-1") "FRM x" (some ["ds1"])
        "json" none "q1" "T0" 3 {}).1.1 = 201) ∧
     ((controllerExecuteQuery eng gm dl (some "user-1") "FRM x" (some ["ds1"])
        "json" none "q1" "T0" 3 {}).1.2.map QueryResult.status = some .failed) ∧
     ((controllerExecuteQuery eng gm dl (some "user-1") "FRM x" (some ["ds1"])
        "json" none "q1" "T0" 3 {}).1.2.map QueryResult.error =
       some (some "near \"FRM\": syntax error"))) :=
  c4_engine_failure_recorded _ _ _ "user-1" "FRM x" ["ds1"] "json" none "q1" "T0"
    3 {} "near \"FRM\": syntax error"
    [("dataset_1", { columns := ["a"], rows := [["1"]] })]
    [("ds1", "dataset_1", { rowCount := 1, columns := ["a"] })]
    (by decide) (by decide) (Or.inl rfl)
    (fun id _ => ⟨Manifest.mk "user-1" "data.csv" "key-1", rfl, rfl⟩) rfl rfl

/-- **C8** (amended): for a submission with `outputFormat: "table"` whose
statement returns zero rows, the completed record has status `completed`,
`rowCount` 0, an empty `columns` list, and `result` equal to the bare empty
array `[]` — not a `{columns, rows}` object (the empty-result branch ignores
the table shape). -/
theorem c8_amended_empty_table_result (eng : Engine)
    (getM : String → Option Manifest) (dl : String → Option String)
    (uid query : String) (ids : List String) (limit : Option Nat)
    (queryId now : String) (elapsed : Nat) (st : ServiceState)
    (ws : Workspace) (infos : List (String × String × LoadInfo))
    (hload : loadAll getM dl ids 0 (st.queryDatabase.getD []) = (.ok (ws, infos), ws))
    (heng : eng ws (applyLimit limit (String.mk (rewriteQuery ids query.data))) =
      .ok []) :
    ((executeQuery eng getM dl uid
        { query := query, datasetIds := ids, outputFormat := .table,
          limit := limit } queryId now elapsed st).1.status = .completed) ∧
    ((executeQuery eng getM dl uid
        { query := query, datasetIds := ids, outputFormat := .table,
          limit := limit } queryId now elapsed st).1.rowCount = some 0) ∧
    ((executeQuery eng getM dl uid
        { query := query, datasetIds := ids, outputFormat := .table,
          limit := limit } queryId now elapsed st).1.columns = some []) ∧
    ((executeQuery eng getM dl uid
        { query := query, datasetIds := ids, outputFormat := .table,
          limit := limit } queryId now elapsed st).1.result =
      some (JSVal.arr [])) := by
  simp only [executeQuery, hload, heng, formatResult]
  exact ⟨trivial, rfl, trivial, rfl⟩

/-- Witness for the amended C8 theorem at a header-only dataset. -/
theorem c8_amended_empty_table_result_witness :
    (let gm := fun (_ : String) => some (Manifest.mk "user-1" "data.csv" "key-1")
     let dl := fun (_ : String) => some "a,b"
     ((executeQuery miniEngine gm dl "user-1"
        { query := "SELECT * FROM ds1", datasetIds := ["ds1"],
          outputFormat := .table, limit := none } "q1" "T0" 3 {}).1.status =
       .completed) ∧
     ((executeQuery miniEngine gm dl "user-1"
        { query := "SELECT * FROM ds1", datasetIds := ["ds1"],
          outputFormat := .table, limit := none } "q1" "T0" 3 {}).1.rowCount =
       some 0) ∧
     ((executeQuery miniEngine gm dl "user-1"
        { query := "SELECT * FROM ds1", datasetIds := ["ds1"],
          outputFormat := .table, limit := none } "q1" "T0" 3 {}).1.columns =
       some []) ∧
     ((executeQuery miniEngine gm dl "user-1"
        { query := "SELECT * FROM ds1", datasetIds := ["ds1"],
          outputFormat := .table, limit := none } "q1" "T0" 3 {}).1.result =
       some (JSVal.arr []))) :=
  c8_amended_empty_table_result miniEngine _ _ "user-1" "SELECT * FROM ds1"
    ["ds1"] none "q1" "T0" 3 {}
    [("dataset_1", { columns := ["a", "b"], rows := [] })]
    [("ds1", "dataset_1", { rowCount := 0, columns := ["a", "b"] })] rfl rfl

theorem not_mem_joinChar {x sep : Char} (hx : x ≠ sep) :
    ∀ {ls : List (List Char)}, (∀ l ∈ ls, x ∉ l) → x ∉ joinChar sep ls := by
  intro ls
  induction ls with
  | nil => intro _ h; cases h
  | cons a rest ih =>
    intro h hmem
    match rest with
    | [] => exact h a (List.mem_cons_self _ _) hmem
    | b :: rest2 =>
      rw [joinChar] at hmem
      rcases List.mem_append.mp hmem with hmem | hmem
      · exact h a (List.mem_cons_self _ _) hmem
      · rcases List.mem_cons.mp hmem with rfl | hmem
        · exact hx rfl
        · exact ih (fun l hl => h l (List.mem_cons_of_mem _ hl)) hmem

theorem not_mem_csvCellL {row : SRow} {c : String}
    (hval : ∀ v, jsLookup row c = some v → jsTruthy v = true →
      ('\n' : Char) ∉ (svalToString v).data) :
    ('\n' : Char) ∉ csvCellL row c := by
  intro hmem
  unfold csvCellL at hmem
  rcases List.mem_cons.mp hmem with h | h
  · exact absurd h (by decide)
  rcases List.mem_append.mp h with h | h
  · rcases hv : jsLookup row c with _ | v
    · simp only [hv] at h
      cases h
    · simp only [hv] at h
      by_cases ht : jsTruthy v = true
      · rw [if_pos ht] at h
        exact hval v hv ht h
      · rw [if_neg ht] at h
        cases h
  · exact absurd (List.mem_singleton.mp h) (by decide)

/-- **C9** (amended): for every row set whose column names and value texts
contain no newline, the delimited result splits on newlines into exactly the
header line (comma-joined column names) followed by one line per row, each
line the comma-join of double-quote-wrapped cells; a cell serializes to an
empty quoted field whenever the value is missing (undefined), null, **or
otherwise falsy** (the number 0, the empty string), and a truthy value
passes through by string conversion. -/
theorem c9_amended_formatting (columns : List String) (rows : List SRow)
    (hcols : ∀ c ∈ columns, ('\n' : Char) ∉ c.data)
    (hvals : ∀ row ∈ rows, ∀ p ∈ row, ('\n' : Char) ∉ (svalToString p.2).data) :
    (splitOnChar '\n' (formatCsv columns rows).data =
      joinChar ',' (columns.map String.data) :: rows.map (csvLine columns)) ∧
    (∀ row c v, jsLookup row c = some v → jsTruthy v = false →
      csvCellL row c = ['"', '"']) ∧
    (∀ row c, jsLookup row c = none → csvCellL row c = ['"', '"']) ∧
    (∀ row c v, jsLookup row c = some v → jsTruthy v = true →
      csvCellL row c = '"' :: ((svalToString v).data ++ ['"'])) := by
  refine ⟨?_, ?_, ?_, ?_⟩
  · unfold formatCsv
    rw [data_mk]
    apply splitOnChar_joinChar (by simp)
    intro l hl
    rcases List.mem_cons.mp hl with rfl | hl
    · refine not_mem_joinChar (by decide) ?_
      intro cd hcd
      obtain ⟨c, hc, rfl⟩ := List.mem_map.mp hcd
      exact hcols c hc
    · obtain ⟨row, hrow, rfl⟩ := List.mem_map.mp hl
      unfold csvLine
      refine not_mem_joinChar (by decide) ?_
      intro cell hcell
      obtain ⟨c, hc, rfl⟩ := List.mem_map.mp hcell
      refine not_mem_csvCellL ?_
      intro v hv _ht
      unfold jsLookup at hv
      rcases hfind : row.find? (fun p => p.1 == c) with _ | p
      · rw [hfind] at hv
        cases hv
      · rw [hfind] at hv
        simp only [Option.map_some'] at hv
        have hv2 : p.2 = v := Option.some.inj hv
        rw [← hv2]
        exact hvals row hrow p (List.mem_of_find?_eq_some hfind)
  · intro row c v hv ht
    simp [csvCellL, hv, ht]
  · intro row c hv
    simp [csvCellL, hv]
  · intro row c v hv ht
    simp [csvCellL, hv, ht]

/-- Witness for the amended C9 theorem: two rows over one column, one truthy
string value and one null, split into a header plus two data lines. -/
theorem c9_amended_formatting_witness :
    splitOnChar '\n'
      (formatCsv ["a"] [[("a", SVal.str "x")], [("a", SVal.nullv)]]).data =
      joinChar ',' (["a"].map String.data) ::
        [[("a", SVal.str "x")], [("a", SVal.nullv)]].map (csvLine ["a"]) :=
  (c9_amended_formatting ["a"] [[("a", SVal.str "x")], [("a", SVal.nullv)]]
    (by decide) (by decide)).1

end AkaveQuery
